import Mathlib

/-!
Verification of the stepper-motor motion engine in
`Examples/MCUXpresso/tinyK22/tinyK22_WS2812B_Ring/source/stepper.c`.

The per-motor device record `STEPPER_Device_t` is embedded as the structure
`Dev`; C machine integers (`int32_t`, `int16_t`) are modelled as `ℤ` (all
quantities reached in the proved statements stay far inside the machine
ranges, so no wrap-around is involved).  C's `/` and `%` on signed operands
truncate toward zero, so they are embedded as `Int.tdiv` and `Int.tmod`.
-/

namespace Stepper

/-- McuLib error codes used by `stepper.c` (`ERR_OK`, `ERR_FAILED`,
`ERR_UNDERFLOW`); the header defining their numeric values is not part of
the sources, only their distinctness matters here. -/
inductive Err where
  | ok
  | failed
  | underflow
deriving DecidableEq, Repr

/-- Embedding of `STEPPER_Device_t` (stepper.c, lines 64-74): the mutable
per-motor record.  The opaque driver handle, the step callback and the
FreeRTOS queue carry no motion state and are omitted; the step callback's
effect is fully reflected in the `pos` field. -/
structure Dev where
  pos : ℤ
  doSteps : ℤ
  delay : ℤ
  delayCntr : ℤ
  accelStepCntr : ℤ
  speedup : Bool
  slowdown : Bool
deriving DecidableEq, Repr

/-- Constant `STEPPER_ACCEL_HIGHEST_POS` (stepper.c, line 130). -/
def STEPPER_ACCEL_HIGHEST_POS : ℤ := 300

/-- Embedding of `AccelDelay` (stepper.c, lines 140-154): adds a
ramp-dependent amount to `delayCntr`. -/
def AccelDelay (mot : Dev) (steps : ℤ) : Dev :=
  if steps ≤ STEPPER_ACCEL_HIGHEST_POS then
    if steps ≤ 50 then
      { mot with delayCntr := mot.delayCntr + 10 }
    else if steps ≤ 100 then
      { mot with delayCntr := mot.delayCntr + 7 }
    else if steps ≤ 150 then
      { mot with delayCntr := mot.delayCntr + 5 }
    else if steps ≤ 250 then
      { mot with delayCntr := mot.delayCntr + 3 }
    else if steps ≤ STEPPER_ACCEL_HIGHEST_POS then
      { mot with delayCntr := mot.delayCntr + 1 }
    else
      mot
  else
    mot

/-- Step execution block of `STEPPER_TimerClockCallback` (stepper.c, lines
166-174): move `pos` toward the target by one and shrink `doSteps` by one,
in the direction of the sign of `doSteps`. -/
def doOneStep (mot : Dev) : Dev :=
  if mot.doSteps > 0 then
    { mot with pos := mot.pos + 1, doSteps := mot.doSteps - 1 }
  else if mot.doSteps < 0 then
    { mot with pos := mot.pos - 1, doSteps := mot.doSteps + 1 }
  else mot

/-- Delay-counter reload of `STEPPER_TimerClockCallback` (stepper.c, line
175). -/
def reloadDelay (mot : Dev) : Dev :=
  { mot with delayCntr := mot.delay }

/-- Acceleration/deceleration ramp block of `STEPPER_TimerClockCallback`
(stepper.c, lines 176-195). -/
def applyRamp (mot : Dev) : Dev :=
  if mot.speedup || mot.slowdown then
    let stepsToGo := if mot.doSteps < 0 then -mot.doSteps else mot.doSteps
    if mot.speedup && decide (stepsToGo > STEPPER_ACCEL_HIGHEST_POS) then
      let mot' :=
        if mot.accelStepCntr ≤ STEPPER_ACCEL_HIGHEST_POS then
          { mot with accelStepCntr := mot.accelStepCntr + 1 }
        else mot
      AccelDelay mot' mot'.accelStepCntr
    else if mot.slowdown && decide (stepsToGo < STEPPER_ACCEL_HIGHEST_POS) then
      let motA :=
        if mot.accelStepCntr ≥ 0 then
          { mot with accelStepCntr := mot.accelStepCntr - 1 }
        else mot
      let motB := { motA with accelStepCntr := motA.accelStepCntr - 1 }
      AccelDelay motB motB.accelStepCntr
    else mot
  else mot

/-- Embedding of `STEPPER_TimerClockCallback` (stepper.c, lines 161-203):
one tick of the motion engine; returns the updated device and the C
function's boolean result. -/
def STEPPER_TimerClockCallback (mot : Dev) : Dev × Bool :=
  if mot.delayCntr = 0 then
    if mot.doSteps ≠ 0 then
      (applyRamp (reloadDelay (doOneStep mot)), true)
    else (mot, false)
  else ({ mot with delayCntr := mot.delayCntr - 1 }, true)

/-- Iterate the tick `n` times (state only). -/
def tickN : ℕ → Dev → Dev
  | 0, mot => mot
  | n + 1, mot => tickN n (STEPPER_TimerClockCallback mot).1

/-- Rotation-direction policy `STEPPER_MoveMode_e` of `stepper.h`
(`CW`, `CCW`, `SHORT`). -/
inductive MoveMode where
  | cw
  | ccw
  | short
deriving DecidableEq, Repr

/-- Degree normalization at the start of `STEPPER_MoveClockDegreeAbs`
(stepper.c, lines 270-273): add 360 if negative, then C `%= 360`. -/
def normalizeDegree (degree : ℤ) : ℤ :=
  Int.tmod (if degree < 0 then 360 + degree else degree) 360

/-- Target step computation of `STEPPER_MoveClockDegreeAbs` (stepper.c,
line 274), parameterized by the configuration constant
`STEPPER_CLOCK_360_STEPS` (`spr`). -/
def targetPos360 (spr degree : ℤ) : ℤ :=
  Int.tdiv (spr * normalizeDegree degree) 360

/-- Current-step computation of `STEPPER_MoveClockDegreeAbs` (stepper.c,
lines 275-279): position modulo one revolution, forced non-negative. -/
def currPos360 (spr pos : ℤ) : ℤ :=
  let c := Int.tmod pos spr
  if c < 0 then spr + c else c

/-- Direction-policy step delta of `STEPPER_MoveClockDegreeAbs`
(stepper.c, lines 280-297). -/
def moveSteps (spr target curr : ℤ) (mode : MoveMode) : ℤ :=
  match mode with
  | .cw =>
    let steps := target - curr
    if steps < 0 then spr + steps else steps
  | .ccw =>
    let steps := target - curr
    if steps > 0 then -spr + steps else steps
  | .short =>
    let steps := target - curr
    if steps > Int.tdiv spr 2 then -(spr - steps)
    else if steps < -(Int.tdiv spr 2) then -(-spr - steps)
    else steps

/-- Embedding of `STEPPER_MoveClockDegreeAbs` (stepper.c, lines 266-303),
parameterized by `spr = STEPPER_CLOCK_360_STEPS`. -/
def STEPPER_MoveClockDegreeAbs (spr : ℤ) (dev : Dev) (degree : ℤ) (mode : MoveMode)
    (delay : ℤ) (speedUp slowDown : Bool) : Dev :=
  { dev with
    doSteps := moveSteps spr (targetPos360 spr degree) (currPos360 spr dev.pos) mode
    accelStepCntr := 0
    delay := delay
    speedup := speedUp
    slowdown := slowDown }

/-- Embedding of `STEPPER_MoveMotorStepsRel` (stepper.c, lines 305-311). -/
def STEPPER_MoveMotorStepsRel (dev : Dev) (steps delay : ℤ) : Dev :=
  { dev with doSteps := steps, accelStepCntr := 0, delay := delay }

/-- Inner per-motor check of the `STEPPER_MoveHandOnSensor` polling loop
(stepper.c, lines 367-373): all motors read `onSensor` from their magnetic
sensor.  `trig i` is the sensor reading of motor `i` at the current poll. -/
def allOnGoal (nofMotors : ℕ) (trig : ℕ → Bool) (onSensor : Bool) : Bool :=
  (List.range nofMotors).all fun i => trig i == onSensor

/-- Embedding of the polling loop of `STEPPER_MoveHandOnSensor`
(stepper.c, lines 361-389).  The physical stepping and the
`STEPPER_MoveAndWait` sleep are abstracted into the sensor oracle
`trig : poll index → motor index → reading`; `fuel` bounds the number of
loop iterations (the C loop does not terminate when `waitms = 0` and the
sensors never match, so the embedding is fuel-indexed and returns `none`
exactly when the fuel runs out before the loop exits). -/
def STEPPER_MoveHandOnSensor (nofMotors : ℕ) (trig : ℕ → ℕ → Bool) (onSensor : Bool)
    (waitms : ℤ) : ℤ → ℕ → ℕ → Option Err
  | _, _, 0 => none
  | timeoutms, poll, fuel + 1 =>
    if allOnGoal nofMotors (trig poll) onSensor || decide (timeoutms < 0) then
      some (if timeoutms < 0 then Err.underflow else Err.ok)
    else
      STEPPER_MoveHandOnSensor nofMotors trig onSensor waitms (timeoutms - waitms) (poll + 1) fuel

/-- Observable collaborator calls made by the homing/calibration routines. -/
inductive Effect where
  | escapeMove
  | zeroCurrentPos
  | phase (n : ℕ)
  | writeConfig
  | moveByOffset
  | setZeroPosition
deriving DecidableEq, Repr

/-- Control-flow embedding of `STEPPER_ZeroHand` (stepper.c, lines 408-439).
The three `STEPPER_MoveHandOnSensor` phases involve physical motion, so each
is abstracted by its result (`phaseCoarse`, `phaseBackOff`, `phaseReApproach`);
the function returns the C result value together with the trace of
collaborator calls actually executed, in order. -/
def STEPPER_ZeroHand (phaseCoarse phaseBackOff phaseReApproach : Err) : Err × List Effect :=
  let res := Err.ok
  let res := if phaseCoarse ≠ Err.ok then Err.failed else res
  let res := if phaseBackOff ≠ Err.ok then Err.failed else res
  let res := if phaseReApproach ≠ Err.ok then Err.failed else res
  (res, [Effect.escapeMove, Effect.phase 1, Effect.phase 2, Effect.phase 3,
         Effect.moveByOffset, Effect.setZeroPosition])

/-- Control-flow embedding of `STEPPER_SetOffsetFrom12` (stepper.c, lines
460-517).  The three `STEPPER_MoveHandOnSensor` phases and the
`NVMC_WriteConfig` call are abstracted by their results; the function
returns the C result value together with the trace of collaborator calls
actually executed, in order.  As in the source, the result values recorded
for the first two phases are later overwritten. -/
def STEPPER_SetOffsetFrom12 (phase1 phase2 phase3 wr : Err) : Err × List Effect :=
  let res := Err.ok
  let res := if phase1 ≠ Err.ok then Err.failed else res
  let res := if phase2 ≠ Err.ok then Err.failed else res
  if phase3 ≠ Err.ok then
    (Err.failed, [Effect.zeroCurrentPos, Effect.phase 1, Effect.phase 2, Effect.phase 3])
  else
    let res := wr
    if res ≠ Err.ok then
      (res, [Effect.zeroCurrentPos, Effect.phase 1, Effect.phase 2, Effect.phase 3,
             Effect.writeConfig])
    else
      (res, [Effect.zeroCurrentPos, Effect.phase 1, Effect.phase 2, Effect.phase 3,
             Effect.writeConfig, Effect.moveByOffset])

/-! Field lemmas for `AccelDelay`: it only ever touches `delayCntr`. -/

@[simp] lemma AccelDelay_pos (mot : Dev) (s : ℤ) : (AccelDelay mot s).pos = mot.pos := by
  unfold AccelDelay; split_ifs <;> rfl

@[simp] lemma AccelDelay_doSteps (mot : Dev) (s : ℤ) :
    (AccelDelay mot s).doSteps = mot.doSteps := by
  unfold AccelDelay; split_ifs <;> rfl

@[simp] lemma AccelDelay_delay (mot : Dev) (s : ℤ) : (AccelDelay mot s).delay = mot.delay := by
  unfold AccelDelay; split_ifs <;> rfl

@[simp] lemma AccelDelay_accelStepCntr (mot : Dev) (s : ℤ) :
    (AccelDelay mot s).accelStepCntr = mot.accelStepCntr := by
  unfold AccelDelay; split_ifs <;> rfl

@[simp] lemma AccelDelay_speedup (mot : Dev) (s : ℤ) :
    (AccelDelay mot s).speedup = mot.speedup := by
  unfold AccelDelay; split_ifs <;> rfl

@[simp] lemma AccelDelay_slowdown (mot : Dev) (s : ℤ) :
    (AccelDelay mot s).slowdown = mot.slowdown := by
  unfold AccelDelay; split_ifs <;> rfl

lemma AccelDelay_delayCntr_bounds (mot : Dev) (s : ℤ) :
    mot.delayCntr ≤ (AccelDelay mot s).delayCntr ∧
      (AccelDelay mot s).delayCntr ≤ mot.delayCntr + 10 := by
  unfold AccelDelay; split_ifs <;> constructor <;> simp

/-! Field lemmas for the tick stages. -/

@[simp] lemma reloadDelay_pos (mot : Dev) : (reloadDelay mot).pos = mot.pos := rfl

@[simp] lemma reloadDelay_doSteps (mot : Dev) : (reloadDelay mot).doSteps = mot.doSteps := rfl

@[simp] lemma reloadDelay_delay (mot : Dev) : (reloadDelay mot).delay = mot.delay := rfl

@[simp] lemma reloadDelay_delayCntr (mot : Dev) : (reloadDelay mot).delayCntr = mot.delay := rfl

@[simp] lemma reloadDelay_accelStepCntr (mot : Dev) :
    (reloadDelay mot).accelStepCntr = mot.accelStepCntr := rfl

@[simp] lemma reloadDelay_speedup (mot : Dev) : (reloadDelay mot).speedup = mot.speedup := rfl

@[simp] lemma reloadDelay_slowdown (mot : Dev) : (reloadDelay mot).slowdown = mot.slowdown := rfl

lemma doOneStep_pos_add_doSteps (mot : Dev) :
    (doOneStep mot).pos + (doOneStep mot).doSteps = mot.pos + mot.doSteps := by
  unfold doOneStep; split_ifs <;> simp

@[simp] lemma doOneStep_delay (mot : Dev) : (doOneStep mot).delay = mot.delay := by
  unfold doOneStep; split_ifs <;> rfl

@[simp] lemma doOneStep_delayCntr (mot : Dev) : (doOneStep mot).delayCntr = mot.delayCntr := by
  unfold doOneStep; split_ifs <;> rfl

@[simp] lemma doOneStep_accelStepCntr (mot : Dev) :
    (doOneStep mot).accelStepCntr = mot.accelStepCntr := by
  unfold doOneStep; split_ifs <;> rfl

@[simp] lemma doOneStep_speedup (mot : Dev) : (doOneStep mot).speedup = mot.speedup := by
  unfold doOneStep; split_ifs <;> rfl

@[simp] lemma doOneStep_slowdown (mot : Dev) : (doOneStep mot).slowdown = mot.slowdown := by
  unfold doOneStep; split_ifs <;> rfl

lemma doOneStep_doSteps_natAbs (mot : Dev) (h : mot.doSteps ≠ 0) :
    (doOneStep mot).doSteps.natAbs = mot.doSteps.natAbs - 1 := by
  unfold doOneStep; split_ifs <;> simp_all <;> omega

@[simp] lemma applyRamp_pos (mot : Dev) : (applyRamp mot).pos = mot.pos := by
  simp only [applyRamp]; split_ifs <;> simp

@[simp] lemma applyRamp_doSteps (mot : Dev) : (applyRamp mot).doSteps = mot.doSteps := by
  simp only [applyRamp]; split_ifs <;> simp

@[simp] lemma applyRamp_delay (mot : Dev) : (applyRamp mot).delay = mot.delay := by
  simp only [applyRamp]; split_ifs <;> simp

@[simp] lemma applyRamp_speedup (mot : Dev) : (applyRamp mot).speedup = mot.speedup := by
  simp only [applyRamp]; split_ifs <;> simp

@[simp] lemma applyRamp_slowdown (mot : Dev) : (applyRamp mot).slowdown = mot.slowdown := by
  simp only [applyRamp]; split_ifs <;> simp

lemma applyRamp_accelStepCntr_bounds (mot : Dev) (h0 : 0 ≤ mot.accelStepCntr)
    (h1 : mot.accelStepCntr ≤ STEPPER_ACCEL_HIGHEST_POS) :
    -2 ≤ (applyRamp mot).accelStepCntr ∧
      (applyRamp mot).accelStepCntr ≤ STEPPER_ACCEL_HIGHEST_POS + 1 := by
  simp only [applyRamp]; split_ifs <;> simp [STEPPER_ACCEL_HIGHEST_POS] at * <;> omega

lemma applyRamp_delayCntr_bounds (mot : Dev) :
    mot.delayCntr ≤ (applyRamp mot).delayCntr ∧
      (applyRamp mot).delayCntr ≤ mot.delayCntr + 10 := by
  simp only [applyRamp]
  split_ifs <;>
    first
      | exact ⟨le_refl _, by omega⟩
      | · constructor
          · exact le_trans (le_of_eq rfl) (AccelDelay_delayCntr_bounds _ _).1
          · exact le_trans (AccelDelay_delayCntr_bounds _ _).2 (by simp)

lemma applyRamp_of_no_flags (mot : Dev) (hsu : mot.speedup = false)
    (hsd : mot.slowdown = false) : applyRamp mot = mot := by
  simp [applyRamp, hsu, hsd]

end Stepper

namespace Stepper

/-- C10: one invocation of `STEPPER_TimerClockCallback` leaves the sum
`pos + doSteps` unchanged: a step moves `pos` by ±1 and `doSteps` by ∓1,
and delay-countdown and idle ticks change neither, so the absolute target
position `pos + doSteps` fixed at arming time is an invariant of the whole
move. -/
theorem tick_preserves_pos_add_doSteps (mot : Dev) :
    (STEPPER_TimerClockCallback mot).1.pos + (STEPPER_TimerClockCallback mot).1.doSteps
      = mot.pos + mot.doSteps := by
  unfold STEPPER_TimerClockCallback
  split_ifs with h1 h2
  · simpa using doOneStep_pos_add_doSteps mot
  · simp
  · simp

/-- C9: with `STEPPER_CLOCK_360_STEPS = 720` and current position 0,
`STEPPER_MoveClockDegreeAbs` arms `doSteps = 180` for degree 90 mode CW,
`doSteps = 540` for degree -90 mode CW (normalized target degree 270), and
`doSteps = -180` for degree 270 mode SHORTEST (shorter path, CCW). -/
theorem moveClockDegreeAbs_scenario_720 :
    (STEPPER_MoveClockDegreeAbs 720 ⟨0, 0, 0, 0, 0, false, false⟩ 90 MoveMode.cw
        0 false false).doSteps = 180 ∧
    (STEPPER_MoveClockDegreeAbs 720 ⟨0, 0, 0, 0, 0, false, false⟩ (-90) MoveMode.cw
        0 false false).doSteps = 540 ∧
    (STEPPER_MoveClockDegreeAbs 720 ⟨0, 0, 0, 0, 0, false, false⟩ 270 MoveMode.short
        0 false false).doSteps = -180 := by
  decide

/-- C1 counterexample: a device in the claimed range (`accelStepCntr = 300 ∈
[0, 300]`) leaves it after one tick: the speedup branch increments whenever
the counter is still ≤ 300, producing 301 > `ACCEL_HIGHEST_POS`. -/
theorem accelStepCntr_exceeds_300_cex :
    ((0:ℤ) ≤ (Dev.mk 0 302 0 0 300 true false).accelStepCntr ∧
      (Dev.mk 0 302 0 0 300 true false).accelStepCntr ≤ 300) ∧
    (STEPPER_TimerClockCallback (Dev.mk 0 302 0 0 300 true false)).1.accelStepCntr = 301 := by
  decide

/-- C2 counterexample: a device satisfying `0 ≤ delayCntr ≤ delay`
(`delay = delayCntr = 0`) violates it after one tick: the acceleration
table adds 10 to `delayCntr` after the reload, producing
`delayCntr = 10 > 0 = delay`. -/
theorem delayCntr_exceeds_delay_cex :
    ((0:ℤ) ≤ (Dev.mk 0 400 0 0 0 true false).delayCntr ∧
      (Dev.mk 0 400 0 0 0 true false).delayCntr ≤ (Dev.mk 0 400 0 0 0 true false).delay) ∧
    (STEPPER_TimerClockCallback (Dev.mk 0 400 0 0 0 true false)).1.delayCntr = 10 ∧
    (STEPPER_TimerClockCallback (Dev.mk 0 400 0 0 0 true false)).1.delay = 0 := by
  decide

/-- C3 counterexample: when the coarse-approach phase of `STEPPER_ZeroHand`
fails, the overall result is a failure but the final offset move and the
zeroing of the driver position counters are still executed — the failure
does not short-circuit them. -/
theorem zeroHand_no_shortcircuit_cex :
    (STEPPER_ZeroHand Err.underflow Err.ok Err.ok).1 = Err.failed ∧
    Effect.moveByOffset ∈ (STEPPER_ZeroHand Err.underflow Err.ok Err.ok).2 ∧
    Effect.setZeroPosition ∈ (STEPPER_ZeroHand Err.underflow Err.ok Err.ok).2 := by
  decide

/-- C4 counterexample: when the first sensor phase of
`STEPPER_SetOffsetFrom12` fails but the later phases and the flash write
succeed, `NVMC_WriteConfig` is still called and the returned result is
`ERR_OK` — the failure is neither aborting nor reported. -/
theorem setOffsetFrom12_persists_after_failure_cex :
    (STEPPER_SetOffsetFrom12 Err.underflow Err.ok Err.ok Err.ok).1 = Err.ok ∧
    Effect.writeConfig ∈ (STEPPER_SetOffsetFrom12 Err.underflow Err.ok Err.ok Err.ok).2 := by
  decide

/-- C truncating remainder commutes with negation of the dividend. -/
lemma tmod_neg_left (a b : ℤ) : Int.tmod (-a) b = -Int.tmod a b := by
  rw [Int.tmod_def, Int.tmod_def, Int.neg_tdiv]
  ring

/-- For a positive divisor, the C truncating remainder lies in `(-b, b)`. -/
lemma tmod_bounds_of_pos (a : ℤ) {b : ℤ} (hb : 0 < b) :
    -b < Int.tmod a b ∧ Int.tmod a b < b := by
  rcases le_or_lt 0 a with ha | ha
  · exact ⟨lt_of_lt_of_le (by omega) (Int.tmod_nonneg b ha), Int.tmod_lt_of_pos a hb⟩
  · have heq : Int.tmod a b = -Int.tmod (-a) b := by
      rw [tmod_neg_left, neg_neg]
    have h1 : 0 ≤ Int.tmod (-a) b := Int.tmod_nonneg b (by omega)
    have h2 : Int.tmod (-a) b < b := Int.tmod_lt_of_pos _ hb
    omega

/-- For degrees ≥ -360, the normalization of `STEPPER_MoveClockDegreeAbs`
lands in `[0, 360)`. -/
lemma normalizeDegree_bounds {degree : ℤ} (h : -360 ≤ degree) :
    0 ≤ normalizeDegree degree ∧ normalizeDegree degree < 360 := by
  unfold normalizeDegree
  split_ifs with hneg
  · rw [Int.tmod_eq_of_lt (by omega) (by omega)]
    omega
  · rw [Int.tmod_eq_emod (by omega) (by norm_num)]
    omega

/-- For degrees ≥ -360 and a positive revolution length, the target step of
`STEPPER_MoveClockDegreeAbs` lands in `[0, spr)`. -/
lemma targetPos360_bounds {spr degree : ℤ} (hspr : 0 < spr) (h : -360 ≤ degree) :
    0 ≤ targetPos360 spr degree ∧ targetPos360 spr degree < spr := by
  obtain ⟨hn0, hn1⟩ := normalizeDegree_bounds h
  unfold targetPos360
  rw [Int.tdiv_eq_ediv (mul_nonneg hspr.le hn0) (by norm_num)]
  constructor
  · exact Int.ediv_nonneg (mul_nonneg hspr.le hn0) (by norm_num)
  · rw [Int.ediv_lt_iff_lt_mul (by norm_num)]
    calc spr * normalizeDegree degree < spr * 360 := by
          exact mul_lt_mul_of_pos_left hn1 hspr
      _ = spr * 360 := rfl

/-- For a positive revolution length, the current step of
`STEPPER_MoveClockDegreeAbs` lands in `[0, spr)`. -/
lemma currPos360_bounds {spr : ℤ} (pos : ℤ) (hspr : 0 < spr) :
    0 ≤ currPos360 spr pos ∧ currPos360 spr pos < spr := by
  obtain ⟨hl, hu⟩ := tmod_bounds_of_pos pos hspr
  unfold currPos360
  dsimp only
  split_ifs with hneg <;> omega

/-- C5: for every starting position and every degree that normalizes into
`[0, 360)` (degree ≥ -360), the direction policy of
`STEPPER_MoveClockDegreeAbs` holds: mode CW arms `doSteps ≥ 0`, mode CCW
arms `doSteps ≤ 0`, and mode SHORTEST arms `|doSteps| ≤ spr / 2` (the
rotation of smaller magnitude). -/
theorem moveClockDegreeAbs_direction_policy (spr : ℤ) (dev : Dev) (degree delay : ℤ)
    (su sd : Bool) (hspr : 0 < spr) (hdeg : -360 ≤ degree) :
    0 ≤ (STEPPER_MoveClockDegreeAbs spr dev degree MoveMode.cw delay su sd).doSteps ∧
    (STEPPER_MoveClockDegreeAbs spr dev degree MoveMode.ccw delay su sd).doSteps ≤ 0 ∧
    |(STEPPER_MoveClockDegreeAbs spr dev degree MoveMode.short delay su sd).doSteps|
      ≤ spr / 2 := by
  obtain ⟨ht0, ht1⟩ := targetPos360_bounds hspr hdeg
  obtain ⟨hc0, hc1⟩ := currPos360_bounds dev.pos hspr
  have h2 : Int.tdiv spr 2 = spr / 2 := Int.tdiv_eq_ediv hspr.le (by norm_num)
  unfold STEPPER_MoveClockDegreeAbs moveSteps
  refine ⟨?_, ?_, ?_⟩
  · dsimp only
    split_ifs <;> omega
  · dsimp only
    split_ifs <;> omega
  · dsimp only
    rw [h2, abs_le]
    split_ifs <;> constructor <;> omega

/-- Witness for `moveClockDegreeAbs_direction_policy` at the spec's concrete
configuration (`spr = 720`, position 0, degree 90). -/
theorem moveClockDegreeAbs_direction_policy_witness :
    0 ≤ (STEPPER_MoveClockDegreeAbs 720 (Dev.mk 0 0 0 0 0 false false) 90 MoveMode.cw
        0 false false).doSteps ∧
    (STEPPER_MoveClockDegreeAbs 720 (Dev.mk 0 0 0 0 0 false false) 90 MoveMode.ccw
        0 false false).doSteps ≤ 0 ∧
    |(STEPPER_MoveClockDegreeAbs 720 (Dev.mk 0 0 0 0 0 false false) 90 MoveMode.short
        0 false false).doSteps| ≤ 720 / 2 :=
  moveClockDegreeAbs_direction_policy 720 (Dev.mk 0 0 0 0 0 false false) 90 0 false false
    (by norm_num) (by norm_num)

/-- C6 (amended): for every int32 degree ≥ -360, the normalization of
`STEPPER_MoveClockDegreeAbs` yields a degree in `[0, 360)` and the computed
target step is in `[0, spr)`; for degrees below -360 the normalization
yields a negative degree (the single `+360` does not reach `[0, 360)` and C
`%` keeps the dividend's sign), as the counterexample at -400 shows. -/
theorem normalizeDegree_in_range (spr degree : ℤ) (hspr : 0 < spr) (hdeg : -360 ≤ degree) :
    (0 ≤ normalizeDegree degree ∧ normalizeDegree degree < 360) ∧
    (0 ≤ targetPos360 spr degree ∧ targetPos360 spr degree < spr) :=
  ⟨normalizeDegree_bounds hdeg, targetPos360_bounds hspr hdeg⟩

/-- Witness for `normalizeDegree_in_range` at `spr = 720`, degree -90. -/
theorem normalizeDegree_in_range_witness :
    ((0 ≤ normalizeDegree (-90) ∧ normalizeDegree (-90) < 360) ∧
      (0 ≤ targetPos360 720 (-90) ∧ targetPos360 720 (-90) < 720)) :=
  normalizeDegree_in_range 720 (-90) (by norm_num) (by norm_num)

/-- C6 counterexample: for the int32 degree input -400, the normalization
of `STEPPER_MoveClockDegreeAbs` yields -40 ∉ [0, 360) (adding 360 once
does not make it non-negative and C `%` keeps the sign of the dividend),
and the computed target step is -80 ∉ [0, 720). -/
theorem normalizeDegree_negative_cex :
    normalizeDegree (-400) = -40 ∧ targetPos360 720 (-400) = -80 := by
  decide

/-- C1 (amended): for every device state with `accelStepCntr ∈ [0, 300]`,
one invocation of `STEPPER_TimerClockCallback` leaves `accelStepCntr` in
`[-2, 301]`: the speedup increment applies whenever the counter is still
≤ `ACCEL_HIGHEST_POS`, so the counter can reach 301, and in the slowdown
branch only the first of the two decrements is guarded by ≥ 0, so the
counter can reach -2. -/
theorem tick_accelStepCntr_range (mot : Dev) (h0 : 0 ≤ mot.accelStepCntr)
    (h1 : mot.accelStepCntr ≤ STEPPER_ACCEL_HIGHEST_POS) :
    -2 ≤ (STEPPER_TimerClockCallback mot).1.accelStepCntr ∧
      (STEPPER_TimerClockCallback mot).1.accelStepCntr ≤ STEPPER_ACCEL_HIGHEST_POS + 1 := by
  unfold STEPPER_TimerClockCallback
  split_ifs with hdc hds
  · have hb := applyRamp_accelStepCntr_bounds (reloadDelay (doOneStep mot))
      (by simpa) (by simpa)
    simpa using hb
  · simp [STEPPER_ACCEL_HIGHEST_POS] at *; omega
  · simp [STEPPER_ACCEL_HIGHEST_POS] at *; omega

/-- Witness for `tick_accelStepCntr_range` at a concrete in-range device. -/
theorem tick_accelStepCntr_range_witness :
    -2 ≤ (STEPPER_TimerClockCallback (Dev.mk 0 302 0 0 300 true false)).1.accelStepCntr ∧
      (STEPPER_TimerClockCallback (Dev.mk 0 302 0 0 300 true false)).1.accelStepCntr
        ≤ STEPPER_ACCEL_HIGHEST_POS + 1 :=
  tick_accelStepCntr_range (Dev.mk 0 302 0 0 300 true false) (by decide) (by decide)

/-- C2 (amended): the invariant `0 ≤ delayCntr ≤ delay + 10` (not
`≤ delay`) is preserved by every invocation of
`STEPPER_TimerClockCallback` when `0 ≤ delay`: on a step tick `delayCntr`
is reloaded to `delay` and the acceleration-delay table `AccelDelay` may
then add up to 10 more, so `delayCntr` can exceed `delay` by up to 10. -/
theorem tick_delayCntr_range (mot : Dev) (hd : 0 ≤ mot.delay)
    (h0 : 0 ≤ mot.delayCntr) (h1 : mot.delayCntr ≤ mot.delay + 10) :
    0 ≤ (STEPPER_TimerClockCallback mot).1.delayCntr ∧
      (STEPPER_TimerClockCallback mot).1.delayCntr
        ≤ (STEPPER_TimerClockCallback mot).1.delay + 10 := by
  unfold STEPPER_TimerClockCallback
  split_ifs with hdc hds
  · have hb := applyRamp_delayCntr_bounds (reloadDelay (doOneStep mot))
    have hdl : (applyRamp (reloadDelay (doOneStep mot))).delay = mot.delay := by simp
    have hrc : (reloadDelay (doOneStep mot)).delayCntr = mot.delay := by simp
    rw [hrc] at hb
    simp only [hdl]
    omega
  · exact ⟨h0, by simpa using h1⟩
  · simp; omega

/-- Witness for `tick_delayCntr_range` at a concrete device satisfying the
hypotheses. -/
theorem tick_delayCntr_range_witness :
    0 ≤ (STEPPER_TimerClockCallback (Dev.mk 0 400 0 0 0 true false)).1.delayCntr ∧
      (STEPPER_TimerClockCallback (Dev.mk 0 400 0 0 0 true false)).1.delayCntr
        ≤ (STEPPER_TimerClockCallback (Dev.mk 0 400 0 0 0 true false)).1.delay + 10 :=
  tick_delayCntr_range (Dev.mk 0 400 0 0 0 true false) (by decide) (by decide) (by decide)

/-- C3 (amended): in `STEPPER_ZeroHand`, a timeout in any sensor-search
phase makes the overall result `ERR_FAILED`, but it does not short-circuit
the remaining phases: every phase, the final offset move
(`STEPPER_MoveByOffset`) and the zeroing of the driver position counters
(`STEPPER_SetZeroPosition`) are executed unconditionally. -/
theorem zeroHand_failure_result (p1 p2 p3 : Err) :
    ((STEPPER_ZeroHand p1 p2 p3).1 =
      if p1 = Err.ok ∧ p2 = Err.ok ∧ p3 = Err.ok then Err.ok else Err.failed) ∧
    Effect.phase 1 ∈ (STEPPER_ZeroHand p1 p2 p3).2 ∧
    Effect.phase 2 ∈ (STEPPER_ZeroHand p1 p2 p3).2 ∧
    Effect.phase 3 ∈ (STEPPER_ZeroHand p1 p2 p3).2 ∧
    Effect.moveByOffset ∈ (STEPPER_ZeroHand p1 p2 p3).2 ∧
    Effect.setZeroPosition ∈ (STEPPER_ZeroHand p1 p2 p3).2 := by
  cases p1 <;> cases p2 <;> cases p3 <;> decide

/-- C4 (amended): in `STEPPER_SetOffsetFrom12`, only a failure of the third
sensor phase aborts before persisting; failures of the first two phases
neither abort nor affect the returned result.  `NVMC_WriteConfig` is called
exactly when the third phase succeeds, the returned result is then the
write result (any recorded earlier phase failure is overwritten), and the
final offset move runs exactly when the write also succeeds. -/
theorem setOffsetFrom12_phase3_gates_persistence (p1 p2 p3 wr : Err) :
    ((Effect.writeConfig ∈ (STEPPER_SetOffsetFrom12 p1 p2 p3 wr).2) ↔ p3 = Err.ok) ∧
    ((STEPPER_SetOffsetFrom12 p1 p2 p3 wr).1 =
      if p3 = Err.ok then wr else Err.failed) ∧
    ((Effect.moveByOffset ∈ (STEPPER_SetOffsetFrom12 p1 p2 p3 wr).2) ↔
      (p3 = Err.ok ∧ wr = Err.ok)) := by
  cases p1 <;> cases p2 <;> cases p3 <;> cases wr <;> decide

/-- Success half of the homing-termination property: if all motors read the
goal at poll `k` and `k` poll intervals fit strictly inside the timeout,
the loop exits with `ERR_OK`. -/
lemma moveHandOnSensor_ok_of_match (nofMotors : ℕ) (trig : ℕ → ℕ → Bool) (onSensor : Bool)
    (waitms : ℤ) : ∀ (k : ℕ) (timeoutms : ℤ) (poll fuel : ℕ), 0 ≤ waitms →
    allOnGoal nofMotors (trig (poll + k)) onSensor = true →
    (k : ℤ) * waitms < timeoutms → k < fuel →
    STEPPER_MoveHandOnSensor nofMotors trig onSensor waitms timeoutms poll fuel
      = some Err.ok := by
  intro k
  induction k with
  | zero =>
    intro timeoutms poll fuel hw hm ht hf
    match fuel, hf with
    | f + 1, _ =>
      rw [Nat.add_zero] at hm
      simp only [Nat.cast_zero, zero_mul] at ht
      unfold STEPPER_MoveHandOnSensor
      rw [hm]
      simp only [Bool.true_or, if_true]
      rw [if_neg (by omega)]
  | succ k ih =>
    intro timeoutms poll fuel hw hm ht hf
    match fuel, hf with
    | f + 1, _ =>
      have htpos : 0 < timeoutms :=
        lt_of_le_of_lt (mul_nonneg (Nat.cast_nonneg _) hw) ht
      unfold STEPPER_MoveHandOnSensor
      rcases hdone : allOnGoal nofMotors (trig poll) onSensor with _ | _
      · simp only [Bool.false_or]
        rw [if_neg (by simp; omega)]
        apply ih (timeoutms - waitms) (poll + 1) f hw
        · have harg : poll + 1 + k = poll + (k + 1) := by omega
          rw [harg]
          exact hm
        · push_cast at ht
          rw [add_mul, one_mul] at ht
          linarith
        · omega
      · simp only [Bool.true_or, if_true]
        rw [if_neg (by omega)]

/-- Timeout half of the homing-termination property: if the sensors never
all read the goal, the loop exits with `ERR_UNDERFLOW` once the remaining
timeout has gone negative (any fuel beyond `timeoutms / waitms` iterations
suffices). -/
lemma moveHandOnSensor_underflow_of_never (nofMotors : ℕ) (trig : ℕ → ℕ → Bool)
    (onSensor : Bool) (waitms : ℤ)
    (hnever : ∀ n, allOnGoal nofMotors (trig n) onSensor = false) :
    ∀ (fuel : ℕ) (timeoutms : ℤ) (poll : ℕ), timeoutms < (fuel : ℤ) * waitms →
    STEPPER_MoveHandOnSensor nofMotors trig onSensor waitms timeoutms poll (fuel + 1)
      = some Err.underflow := by
  intro fuel
  induction fuel with
  | zero =>
    intro timeoutms poll ht
    simp only [Nat.cast_zero, zero_mul] at ht
    unfold STEPPER_MoveHandOnSensor
    rw [hnever poll]
    simp only [Bool.false_or]
    rw [if_pos (by simp; omega), if_pos ht]
  | succ f ih =>
    intro timeoutms poll ht
    unfold STEPPER_MoveHandOnSensor
    rw [hnever poll]
    simp only [Bool.false_or]
    rcases lt_or_le timeoutms 0 with hneg | hnn
    · rw [if_pos (by simp; omega), if_pos hneg]
    · rw [if_neg (by simp; omega)]
      apply ih (timeoutms - waitms) (poll + 1)
      push_cast at ht ⊢
      rw [add_mul, one_mul] at ht
      linarith

/-- C7: `STEPPER_MoveHandOnSensor` returns `ERR_OK` whenever the sensor
goal is reached for all motors at some poll `k` with
`k * pollIntervalMs < timeoutMs`, and returns the timeout error
`ERR_UNDERFLOW` whenever the sensors never reach the goal: it fails with a
timeout error exactly when the remaining timeout goes negative before all
motors match. -/
theorem moveHandOnSensor_timeout_spec (nofMotors : ℕ) (trig : ℕ → ℕ → Bool)
    (onSensor : Bool) (waitms timeoutms : ℤ) (k fuel : ℕ) :
    (0 ≤ waitms → allOnGoal nofMotors (trig k) onSensor = true →
      (k : ℤ) * waitms < timeoutms → k < fuel →
      STEPPER_MoveHandOnSensor nofMotors trig onSensor waitms timeoutms 0 fuel
        = some Err.ok) ∧
    ((∀ n, allOnGoal nofMotors (trig n) onSensor = false) →
      timeoutms < (fuel : ℤ) * waitms →
      STEPPER_MoveHandOnSensor nofMotors trig onSensor waitms timeoutms 0 (fuel + 1)
        = some Err.underflow) := by
  constructor
  · intro hw hm ht hf
    exact moveHandOnSensor_ok_of_match nofMotors trig onSensor waitms k timeoutms 0 fuel hw
      (by simpa using hm) ht hf
  · intro hnever ht
    exact moveHandOnSensor_underflow_of_never nofMotors trig onSensor waitms hnever
      fuel timeoutms 0 ht

/-- Witness for `moveHandOnSensor_timeout_spec`: a two-motor simulated
sensor that triggers from poll 2 on yields success in time, and one that
never triggers yields the timeout error. -/
theorem moveHandOnSensor_timeout_spec_witness :
    STEPPER_MoveHandOnSensor 2 (fun n _ => decide (2 ≤ n)) true 10 100 0 5
      = some Err.ok ∧
    STEPPER_MoveHandOnSensor 2 (fun _ _ => false) true 10 25 0 4
      = some Err.underflow := by
  constructor
  · exact (moveHandOnSensor_timeout_spec 2 (fun n _ => decide (2 ≤ n)) true 10 100 2 5).1
      (by norm_num) (by decide) (by norm_num) (by norm_num)
  · exact (moveHandOnSensor_timeout_spec 2 (fun _ _ => false) true 10 25 0 3).2
      (fun n => by decide) (by norm_num)

/-- C8 counterexample: a freshly armed device with `doSteps₀ = 2` and
`delay = 1` still has `doSteps = 1 ≠ 0` after exactly `|doSteps₀| = 2`
invocations of `STEPPER_TimerClockCallback`: the second invocation is a
delay-countdown tick and performs no step. -/
theorem conservation_fails_with_delay_cex :
    (tickN 2 (Dev.mk 0 2 1 0 0 false false)).doSteps = 1 := by
  decide

/-- One busy tick of a ramp-free zero-delay device: it performs a step,
returns true, and preserves the zero-delay ramp-free shape. -/
lemma tick_step_zero_delay (mot : Dev) (h : mot.doSteps ≠ 0) (hd : mot.delay = 0)
    (hc : mot.delayCntr = 0) (hsu : mot.speedup = false) (hsd : mot.slowdown = false) :
    (STEPPER_TimerClockCallback mot).2 = true ∧
    (STEPPER_TimerClockCallback mot).1.delay = 0 ∧
    (STEPPER_TimerClockCallback mot).1.delayCntr = 0 ∧
    (STEPPER_TimerClockCallback mot).1.speedup = false ∧
    (STEPPER_TimerClockCallback mot).1.slowdown = false ∧
    (STEPPER_TimerClockCallback mot).1.doSteps.natAbs = mot.doSteps.natAbs - 1 := by
  unfold STEPPER_TimerClockCallback
  rw [if_pos hc, if_pos h]
  have hflags : applyRamp (reloadDelay (doOneStep mot)) = reloadDelay (doOneStep mot) :=
    applyRamp_of_no_flags _ (by simpa) (by simpa)
  refine ⟨rfl, ?_, ?_, ?_, ?_, ?_⟩ <;>
    simp [hflags, hd, hsu, hsd, doOneStep_doSteps_natAbs mot h]

/-- Auxiliary induction for the zero-delay conservation property. -/
lemma conservation_aux : ∀ (n : ℕ) (mot : Dev), mot.delay = 0 → mot.delayCntr = 0 →
    mot.speedup = false → mot.slowdown = false → mot.doSteps.natAbs = n →
    (tickN n mot).doSteps = 0 ∧
    (∀ i, i < n → (STEPPER_TimerClockCallback (tickN i mot)).2 = true) ∧
    (∀ i, i ≤ n → (tickN i mot).delayCntr = 0) := by
  intro n
  induction n with
  | zero =>
    intro mot hd hc hsu hsd hn
    refine ⟨by simpa [tickN] using Int.natAbs_eq_zero.mp hn, by omega, ?_⟩
    intro i hi
    interval_cases i
    simpa [tickN] using hc
  | succ n ih =>
    intro mot hd hc hsu hsd hn
    have h : mot.doSteps ≠ 0 := by
      intro h0; rw [h0] at hn; simp at hn
    obtain ⟨hret, hd', hc', hsu', hsd', habs⟩ := tick_step_zero_delay mot h hd hc hsu hsd
    have hn' : (STEPPER_TimerClockCallback mot).1.doSteps.natAbs = n := by omega
    obtain ⟨ih1, ih2, ih3⟩ := ih (STEPPER_TimerClockCallback mot).1 hd' hc' hsu' hsd' hn'
    have hstep : ∀ j, tickN (j + 1) mot = tickN j (STEPPER_TimerClockCallback mot).1 :=
      fun j => rfl
    refine ⟨by rw [hstep n] at *; exact ih1, ?_, ?_⟩
    · intro i hi
      cases i with
      | zero => simpa [tickN] using hret
      | succ j => rw [hstep j]; exact ih2 j (by omega)
    · intro i hi
      cases i with
      | zero => simpa [tickN] using hc
      | succ j => rw [hstep j]; exact ih3 j (by omega)

/-- C8 (amended): for a freshly armed ramp-free device with `delay = 0`
(`doSteps = doSteps₀ ≠ 0`, `delayCntr = 0`, `speedup = slowdown = false`),
invoking `STEPPER_TimerClockCallback` exactly `|doSteps₀|` times reduces
`doSteps` to 0, every one of those invocations returns true, and
`delayCntr` stays in `[0, delay]` throughout.  (With `delay > 0` the
original claim fails: countdown ticks perform no step, so `|doSteps₀|`
invocations do not finish the move.) -/
theorem conservation_zero_delay (mot : Dev) (h : mot.doSteps ≠ 0) (hd : mot.delay = 0)
    (hc : mot.delayCntr = 0) (hsu : mot.speedup = false) (hsd : mot.slowdown = false) :
    (tickN mot.doSteps.natAbs mot).doSteps = 0 ∧
    (∀ i, i < mot.doSteps.natAbs → (STEPPER_TimerClockCallback (tickN i mot)).2 = true) ∧
    (∀ i, i ≤ mot.doSteps.natAbs →
      0 ≤ (tickN i mot).delayCntr ∧ (tickN i mot).delayCntr ≤ mot.delay) := by
  obtain ⟨h1, h2, h3⟩ := conservation_aux mot.doSteps.natAbs mot hd hc hsu hsd rfl
  exact ⟨h1, h2, fun i hi => by rw [h3 i hi, hd]; exact ⟨le_refl 0, le_refl 0⟩⟩

/-- Witness for `conservation_zero_delay` at a concrete armed device. -/
theorem conservation_zero_delay_witness :
    (tickN (Int.natAbs (Dev.mk 0 3 0 0 0 false false).doSteps)
        (Dev.mk 0 3 0 0 0 false false)).doSteps = 0 ∧
    (∀ i, i < Int.natAbs (Dev.mk 0 3 0 0 0 false false).doSteps →
      (STEPPER_TimerClockCallback (tickN i (Dev.mk 0 3 0 0 0 false false))).2 = true) ∧
    (∀ i, i ≤ Int.natAbs (Dev.mk 0 3 0 0 0 false false).doSteps →
      0 ≤ (tickN i (Dev.mk 0 3 0 0 0 false false)).delayCntr ∧
        (tickN i (Dev.mk 0 3 0 0 0 false false)).delayCntr
          ≤ (Dev.mk 0 3 0 0 0 false false).delay) :=
  conservation_zero_delay (Dev.mk 0 3 0 0 0 false false)
    (by decide) (by decide) (by decide) (by decide) (by decide)

end Stepper
